import Mathlib
set_option maxRecDepth 10000

/-!
Shallow embedding of the EMA-20/50/200 trading bot
(`trading_bot.py`, `risk_management.py`, `helpers.py`, `strategies.py`,
`bybit_demo_session.py`).

Prices, quantities and wall-clock timestamps are modelled as exact
rationals; the exchange wire calls are modelled by the data they return
(the per-sweep open-position snapshot, the order outcome flag) and by the
list of actions the bot issues.  Python float formatting
`float(f"{x:.pf}")` is modelled as round-half-even at `p` decimal digits,
which is Python's behaviour on exactly representable values.
`BybitDemoSession.place_order` / `close_position` / `set_leverage` /
`get_instrument_info` each catch their own exceptions and return `None`
on an exchange error, so no exception ever propagates out of them; the
model therefore has no exceptional control flow, and the exchange
outcome flags (`placeOk`, `closeOk`) only appear in the recorded actions,
exactly as in the source.
-/

attribute [local semireducible] Rat.add Rat.sub Rat.mul Rat.inv Rat.ofScientific

inductive LifecycleState where
  | FLAT | SETUP | ENTERED
  deriving DecidableEq

inductive TradeSide where
  | long | short
  deriving DecidableEq

inductive ApiSide where
  | Buy | Sell
  deriving DecidableEq

/-- Event kinds written through `EventLogger.log_event` that the claims
mention (`event=` strings in `trading_bot.py`). -/
inductive EvKind where
  | exit_overtime | exit_trail | order_placed | error
  deriving DecidableEq

/-- One row of the prepared dataframe (`Strategies.prepare_dataframe`):
a candle annotated with its EMA20/EMA50/EMA200 and ATR14 columns. -/
structure BarRow where
  ts : ℤ
  high : ℚ
  low : ℚ
  close : ℚ
  ema20 : ℚ
  ema50 : ℚ
  ema200 : ℚ
  atr14 : ℚ
  deriving DecidableEq

/-- `SymbolContext` from `trading_bot.py` (per-symbol mutable state). -/
structure SymbolContext where
  state : LifecycleState
  side : Option TradeSide
  setup_bar_ts : Option ℤ
  last_bar_ts_processed : Option ℤ
  last_closed_position_time : ℚ
  position_open_time : Option ℚ
  deriving DecidableEq

/-- One entry of the exchange's open-position list
(`BybitDemoSession.get_open_positions`); `createdTime`/`updatedTime` are
in milliseconds. -/
structure OpenPosition where
  side : Option ApiSide
  size : ℚ
  createdTime : Option ℚ
  updatedTime : Option ℚ
  deriving DecidableEq

/-- Instrument rules (`DataFetcher.symbol_meta` result). -/
structure SymbolMeta where
  lot_step : ℚ
  tick_step : ℚ
  min_order_qty : ℚ
  deriving DecidableEq

/-- The default rules substituted when instrument info is unavailable
(`trading_bot.py` line 88 and line 281, `RiskManagement.__init__`). -/
def defaultMeta : SymbolMeta :=
  { lot_step := 1 / 1000, tick_step := 1 / 10, min_order_qty := 1 / 1000 }

/-- Configuration loaded in `TradingBot.__init__`. -/
structure BotConfig where
  single_position_mode : Bool
  cooldown_seconds : ℚ
  max_position_hours : ℚ
  equity_usdt : ℚ
  risk_pct : ℚ
  rr : ℚ
  leverage : ℤ
  deriving DecidableEq

/-- Ambient data of one `process_symbol` call: the wall clock
(`self._now()`, taken as constant within the call) and the exchange's
success flags for the order calls issued during the call. -/
structure BotEnv where
  now : ℚ
  placeOk : Bool
  closeOk : Bool
  deriving DecidableEq

/-- Externally visible actions issued during a per-symbol sweep: orders
sent to the exchange and audit events written to the event logger. -/
inductive BotAction where
  | closePosition (size : ℚ) (sideInPosition : Option ApiSide) (ok : Bool)
  | setLeverage (lev : ℤ)
  | placeOrder (side : ApiSide) (qty stopLoss takeProfit : ℚ) (ok : Bool)
  | logEvent (kind : EvKind)
  deriving DecidableEq

def BotAction.isPlaceOrder : BotAction → Bool
  | .placeOrder .. => true
  | _ => false

/-! ### helpers.py -/

/-- Fuel-driven ceiling base-10 logarithm on naturals:
`clog10Aux fuel n` computes the least `k` with `n ≤ 10 ^ k`
whenever `fuel ≥ n`. -/
def clog10Aux : ℕ → ℕ → ℕ
  | 0, _ => 0
  | fuel + 1, n => if n ≤ 1 then 0 else clog10Aux fuel ((n + 9) / 10) + 1

def clog10 (n : ℕ) : ℕ := clog10Aux n n

/-- Python (`round_qty_to_step`):
`precision = max(0, -int(math.floor(math.log10(step))) if step < 1 else 0)`.
For `0 < step < 1` one has `-⌊log10 step⌋ = ⌈log10 (1/step)⌉
= clog10 ⌈1/step⌉`, which is how it is computed here. -/
def precisionOf (step : ℚ) : ℕ :=
  if step < 1 then clog10 ⌈(1 / step : ℚ)⌉₊ else 0

/-- Round a rational to the nearest integer, ties to even — the rounding
applied by Python's float formatting on exactly representable values. -/
def roundHalfEven (x : ℚ) : ℤ :=
  if x - ⌊x⌋ < 1 / 2 then ⌊x⌋
  else if 1 / 2 < x - ⌊x⌋ then ⌊x⌋ + 1
  else if ⌊x⌋ % 2 = 0 then ⌊x⌋ else ⌊x⌋ + 1

/-- Model of `float(f"{x:.{p}f}")`: round `x` to `p` decimal digits. -/
def fmtRound (x : ℚ) (p : ℕ) : ℚ :=
  (roundHalfEven (x * 10 ^ p) : ℚ) / 10 ^ p

/-- `helpers.round_to_step`. -/
def round_to_step (value step : ℚ) : ℚ :=
  if step = 0 then value else ⌊value / step⌋ * step

/-- `helpers.round_qty_to_step`: floor to the step, then re-round the
result to `precision` decimal digits via string formatting. -/
def round_qty_to_step (qty step : ℚ) : ℚ :=
  if step = 0 then qty
  else fmtRound (⌊qty / step⌋ * step) (precisionOf step)

/-! ### risk_management.py -/

/-- The raw (pre-rounding) stop computed in `RiskManagement.compute_sl`. -/
def rawSl (side : TradeSide) (entry swing atr atr_mult : ℚ) : ℚ :=
  match side with
  | .long => min swing entry - atr * atr_mult
  | .short => max swing entry + atr * atr_mult

def compute_sl (m : SymbolMeta) (side : TradeSide)
    (entry swing atr atr_mult : ℚ) : ℚ :=
  round_to_step (rawSl side entry swing atr atr_mult) m.tick_step

/-- The raw (pre-rounding) target computed in `RiskManagement.compute_tp`. -/
def rawTp (side : TradeSide) (entry stop rr : ℚ) : ℚ :=
  match side with
  | .long => entry + rr * (entry - stop)
  | .short => entry - rr * (stop - entry)

def compute_tp (m : SymbolMeta) (side : TradeSide) (entry stop rr : ℚ) : ℚ :=
  round_to_step (rawTp side entry stop rr) m.tick_step

/-- `RiskManagement.position_from_risk`. -/
def position_from_risk (m : SymbolMeta)
    (equity_usdt risk_pct entry stop : ℚ) : ℚ :=
  if |entry - stop| ≤ 0 then 0
  else round_qty_to_step
    (max (equity_usdt * risk_pct / |entry - stop|) m.min_order_qty) m.lot_step

/-! ### strategies.py -/

/-- `df.tail(n)`: the last `n` elements. -/
def tailN (n : ℕ) (l : List α) : List α := l.drop (l.length - n)

def listMin : List ℚ → ℚ
  | [] => 0
  | x :: xs => xs.foldl min x

def listMax : List ℚ → ℚ
  | [] => 0
  | x :: xs => xs.foldl max x

/-- `Strategies.trend_side`.  The `pd.isna` guard of the source is
unreachable here: `ewm(adjust=False)` EMAs of numeric candles are never
NaN, and the model's rationals carry no NaN. -/
def trendSide (row_prev row_latest : BarRow) : Option TradeSide :=
  let ema200_slope := row_latest.ema200 - row_prev.ema200
  if row_latest.ema200 < row_latest.close ∧ 0 < ema200_slope ∧
      row_latest.ema50 ≤ row_latest.ema20 then some .long
  else if row_latest.close < row_latest.ema200 ∧ ema200_slope < 0 ∧
      row_latest.ema20 ≤ row_latest.ema50 then some .short
  else none

/-- `Strategies.touch_pullback_recent`: over `df.tail(lookback+1)`,
`lo = min ema50`, `hi = max ema20`; long: close in `[lo, hi]` or
`low ≤ hi`; short branch as written in the source (same `lo`/`hi`,
test on highs). -/
def touchPullbackRecent (df : List BarRow) (side : TradeSide)
    (lookback_bars : ℕ) : Bool :=
  let sub := tailN (lookback_bars + 1) df
  let lo := listMin (sub.map BarRow.ema50)
  let hi := listMax (sub.map BarRow.ema20)
  match side with
  | .long =>
      sub.any fun r => decide ((lo ≤ r.close ∧ r.close ≤ hi) ∨ r.low ≤ hi)
  | .short =>
      sub.any fun r => decide ((lo ≤ r.close ∧ r.close ≤ hi) ∨ lo ≤ r.high)

/-- `Strategies.confirm`. -/
def confirm (latest : BarRow) (side : TradeSide) : Bool :=
  match side with
  | .long => decide (latest.ema20 < latest.close)
  | .short => decide (latest.close < latest.ema20)

/-- The swing value read in `process_symbol` step 7:
`swing_extreme` returns the index attaining the extreme over
`df.tail(lookback+1)` and the caller reads that row's `low` (long) or
`high` (short), i.e. the window minimum low / maximum high. -/
def swingVal (df : List BarRow) (side : TradeSide) (lookback : ℕ) : ℚ :=
  match side with
  | .long => listMin ((tailN (lookback + 1) df).map BarRow.low)
  | .short => listMax ((tailN (lookback + 1) df).map BarRow.high)

/-- Mirror of a prepared row under price negation (swaps the roles of
`low` and `high`); used to state what an exact short mirror of the long
touch test would be. -/
def mirrorRow (r : BarRow) : BarRow :=
  { ts := r.ts, high := -r.low, low := -r.high, close := -r.close,
    ema20 := -r.ema20, ema50 := -r.ema50, ema200 := -r.ema200,
    atr14 := r.atr14 }

/-! ### trading_bot.py -/

/-- The prepared dataframe handed to `process_symbol`: at least two rows,
with `latest = df.iloc[-1]` and `prev = df.iloc[-2]`. -/
structure PreparedFrame where
  pre : List BarRow
  prev : BarRow
  latest : BarRow
  deriving DecidableEq

def frameRows (f : PreparedFrame) : List BarRow :=
  f.pre ++ [f.prev, f.latest]

/-- `TradingBot._cooldown_ok`. -/
def cooldownOk (cfg : BotConfig) (env : BotEnv) (c : SymbolContext) : Bool :=
  if c.last_closed_position_time ≤ 0 then true
  else decide (cfg.cooldown_seconds - (env.now - c.last_closed_position_time) ≤ 0)

/-- `TradingBot._auto_close_if_overtime`.  `close_position` catches its
own exceptions, so the `except ... raise` branch of the source is
unreachable and the state updates always follow a close attempt.
Python truthiness: `elif c.position_open_time:` is false for `None` and
for `0.0`. -/
def autoCloseIfOvertime (cfg : BotConfig) (env : BotEnv)
    (c : SymbolContext) (open_positions : List OpenPosition) :
    Bool × SymbolContext × List BotAction :=
  match open_positions with
  | [] => (false, c, [])
  | pos :: _ =>
    if pos.size = 0 then (false, c, [])
    else
      let open_ms : Option ℚ :=
        match pos.createdTime with
        | some ms => some ms
        | none => pos.updatedTime
      let opened_at : Option ℚ :=
        match open_ms with
        | some ms => some (ms / 1000)
        | none =>
          match c.position_open_time with
          | some t => if t = 0 then none else some t
          | none => none
      match opened_at with
      | none => (false, c, [])
      | some t =>
        if cfg.max_position_hours * 3600 ≤ env.now - t then
          (true,
           { c with last_closed_position_time := env.now,
                    position_open_time := none,
                    state := .FLAT },
           [.closePosition pos.size pos.side env.closeOk,
            .logEvent .exit_overtime])
        else (false, c, [])

/-- `process_symbol` step 2: manage an open position (overtime exit has
priority over the trail exit).  On a trail close the source records
`last_closed_position_time` and sets the state to `FLAT` but does not
touch `position_open_time`. -/
def managePosition (cfg : BotConfig) (env : BotEnv) (latest : BarRow)
    (c : SymbolContext) (pos : OpenPosition) : SymbolContext × List BotAction :=
  let t := autoCloseIfOvertime cfg env c [pos]
  if t.1 then (t.2.1, t.2.2)
  else if pos.side = some ApiSide.Buy ∧ latest.close < latest.ema20 then
    ({ t.2.1 with last_closed_position_time := env.now, state := .FLAT },
     t.2.2 ++ [.closePosition pos.size (some .Buy) env.closeOk,
               .logEvent .exit_trail])
  else if pos.side = some ApiSide.Sell ∧ latest.ema20 < latest.close then
    ({ t.2.1 with last_closed_position_time := env.now, state := .FLAT },
     t.2.2 ++ [.closePosition pos.size (some .Sell) env.closeOk,
               .logEvent .exit_trail])
  else (t.2.1, t.2.2)

def apiSideOf : TradeSide → ApiSide
  | .long => .Buy
  | .short => .Sell

/-- `process_symbol` steps 4–7 (the branch reached when the exchange
reports no open position; `position_open_time` has already been
cleared by the caller).  `metaE` is `self.meta_map.get(sym)`; the source
replaces a missing/`None` entry by the default rules (`... or {...}`).
The entry path issues `set_leverage` explicitly and then again inside
`place_order` (which is called with `leverage=self.leverage`);
`place_order` swallows exchange errors and returns `None`, so the
success path (including the `order_placed` event and the transition to
`ENTERED`) runs regardless of `env.placeOk`. -/
def evalFlat (cfg : BotConfig) (env : BotEnv) (f : PreparedFrame)
    (c : SymbolContext) (anyOpen : Bool) (metaE : Option SymbolMeta) :
    SymbolContext × List BotAction :=
  if cfg.single_position_mode && anyOpen then (c, [])
  else if !cooldownOk cfg env c then (c, [])
  else
    match trendSide f.prev f.latest with
    | none => ({ c with state := .FLAT }, [])
    | some side =>
      let touched := touchPullbackRecent (frameRows f) side 2
      let confirmed := confirm f.latest side
      if !(touched && confirmed) then
        ({ c with state := if touched then .SETUP else .FLAT }, [])
      else
        let entry := f.latest.close
        let atr := f.latest.atr14
        let swing_val := swingVal (frameRows f) side 5
        let meta := metaE.getD defaultMeta
        let stop := compute_sl meta side entry swing_val atr (6 / 5)
        let qty := position_from_risk meta cfg.equity_usdt cfg.risk_pct entry stop
        let tp := compute_tp meta side entry stop cfg.rr
        if qty ≤ 0 then (c, [])
        else
          ({ c with position_open_time := some env.now,
                    state := .ENTERED, side := some side },
           [.setLeverage cfg.leverage, .setLeverage cfg.leverage,
            .placeOrder (apiSideOf side) qty stop tp env.placeOk,
            .logEvent .order_placed])

/-- `TradingBot.process_symbol` for one symbol of one sweep, given the
prepared frame, the symbol's context, this symbol's slice of the
per-sweep open-position snapshot, the sweep-wide `any position open`
flag and the cached instrument rules entry. -/
def processSymbol (cfg : BotConfig) (env : BotEnv) (f : PreparedFrame)
    (c : SymbolContext) (posList : List OpenPosition) (anyOpen : Bool)
    (metaE : Option SymbolMeta) : SymbolContext × List BotAction :=
  if c.last_bar_ts_processed = some f.latest.ts then (c, [])
  else
    let c2 := { c with last_bar_ts_processed := some f.latest.ts }
    match posList.head? with
    | some pos => managePosition cfg env f.latest c2 pos
    | none =>
      evalFlat cfg env f { c2 with position_open_time := none } anyOpen metaE

/-- Derived `any position open` flag of
`TradingBot._refresh_open_positions_map`. -/
def anyOpenOf (symbols : List String)
    (snapshot : String → List OpenPosition) : Bool :=
  symbols.any fun s => !(snapshot s).isEmpty

/-- `TradingBot.job`: one sweep — the snapshot is taken once, then each
symbol is processed with it; the returned list tags every issued action
with its symbol. -/
def jobSweep (cfg : BotConfig) (env : BotEnv) (symbols : List String)
    (snapshot : String → List OpenPosition)
    (frames : String → PreparedFrame) (metas : String → Option SymbolMeta)
    (ctxs : String → SymbolContext) : List (String × BotAction) :=
  let ao := anyOpenOf symbols snapshot
  symbols.flatMap fun s =>
    (processSymbol cfg env (frames s) (ctxs s) (snapshot s) ao (metas s)).2.map
      fun a => (s, a)

/-! ### Concrete instances used by counterexamples and witnesses -/

/-- Configuration with the source's default settings
(`RISK_PCT=0.01`, `RISK_RR=2.0`, `LEVERAGE=10`, `POSITION_MAX_HOURS=12`,
`COOLDOWN_SECONDS=7200`, `SINGLE_POSITION_MODE=1`, `EQUITY_USDT=1000`). -/
def exCfg : BotConfig :=
  { single_position_mode := true, cooldown_seconds := 7200,
    max_position_hours := 12, equity_usdt := 1000, risk_pct := 1 / 100,
    rr := 2, leverage := 10 }

def envOk : BotEnv := { now := 1000000, placeOk := true, closeOk := true }

def envFail : BotEnv := { now := 1000000, placeOk := false, closeOk := true }

/-- A two-row frame on which the long entry conditions all hold. -/
def exFrame : PreparedFrame :=
  { pre := [],
    prev := { ts := 1, high := 109, low := 108, close := 100,
              ema20 := 116, ema50 := 115, ema200 := 100, atr14 := 0 },
    latest := { ts := 2, high := 121, low := 110, close := 120,
                ema20 := 116, ema50 := 115, ema200 := 110, atr14 := 5 } }

/-- A two-row frame whose latest close is below EMA20 (long trail rule). -/
def trailFrame : PreparedFrame :=
  { pre := [],
    prev := { ts := 1, high := 109, low := 108, close := 100,
              ema20 := 116, ema50 := 115, ema200 := 100, atr14 := 0 },
    latest := { ts := 2, high := 121, low := 95, close := 100,
                ema20 := 116, ema50 := 115, ema200 := 110, atr14 := 5 } }

def freshCtx : SymbolContext :=
  { state := .FLAT, side := none, setup_bar_ts := none,
    last_bar_ts_processed := none, last_closed_position_time := 0,
    position_open_time := none }

/-- Local memory claiming an entered position, with the latest bar
already processed (`last_bar_ts_processed = exFrame.latest.ts`). -/
def enteredCtx : SymbolContext :=
  { state := .ENTERED, side := some .long, setup_bar_ts := none,
    last_bar_ts_processed := some 2, last_closed_position_time := 0,
    position_open_time := some 5 }

/-- Context of a position opened 1000 seconds before `envOk.now`
(no overtime), locally remembered. -/
def trailCtx : SymbolContext :=
  { state := .ENTERED, side := some .long, setup_bar_ts := none,
    last_bar_ts_processed := none, last_closed_position_time := 0,
    position_open_time := some 999000 }

/-- Context of a position remembered as opened at t = 50, far past the
12-hour limit at `envOk.now`. -/
def overtimeCtx : SymbolContext :=
  { state := .ENTERED, side := some .long, setup_bar_ts := none,
    last_bar_ts_processed := none, last_closed_position_time := 0,
    position_open_time := some 50 }

/-- An exchange-reported long position of size 2 with no reported open
timestamp. -/
def posBuy : OpenPosition :=
  { side := some .Buy, size := 2, createdTime := none, updatedTime := none }

def dedupCtx : SymbolContext :=
  { state := .FLAT, side := none, setup_bar_ts := none,
    last_bar_ts_processed := some 2, last_closed_position_time := 0,
    position_open_time := none }

/-- A one-row frame tail in a short regime (EMA20 below EMA50) whose
close sits inside the EMA zone. -/
def shortRow : BarRow :=
  { ts := 1, high := 15, low := 15, close := 15,
    ema20 := 10, ema50 := 20, ema200 := 0, atr14 := 0 }

/-! ### Arithmetic facts about the rounding helpers -/

theorem roundHalfEven_intCast (n : ℤ) : roundHalfEven (n : ℚ) = n := by
  unfold roundHalfEven
  norm_num

theorem roundHalfEven_nonneg {x : ℚ} (h : 0 ≤ x) : 0 ≤ roundHalfEven x := by
  have h0 : (0 : ℤ) ≤ ⌊x⌋ := Int.floor_nonneg.mpr h
  unfold roundHalfEven
  split
  · exact h0
  · split
    · omega
    · split <;> omega

theorem fmtRound_eq_self {x : ℚ} {p : ℕ} (n : ℤ) (h : x * 10 ^ p = (n : ℚ)) :
    fmtRound x p = x := by
  unfold fmtRound
  rw [h, roundHalfEven_intCast, ← h]
  exact mul_div_cancel_right₀ x (by positivity)

theorem fmtRound_nonneg {x : ℚ} (p : ℕ) (h : 0 ≤ x) : 0 ≤ fmtRound x p := by
  unfold fmtRound
  apply div_nonneg _ (by positivity)
  exact_mod_cast roundHalfEven_nonneg (mul_nonneg h (by positivity))

theorem round_qty_to_step_eq_floor (qty : ℚ) {step : ℚ} (hs : step ≠ 0)
    (hdec : (step * 10 ^ precisionOf step).den = 1) :
    round_qty_to_step qty step = ⌊qty / step⌋ * step := by
  unfold round_qty_to_step
  rw [if_neg hs]
  obtain ⟨n, hn⟩ : ∃ n : ℤ, step * 10 ^ precisionOf step = (n : ℚ) :=
    ⟨_, (Rat.coe_int_num_of_den_eq_one hdec).symm⟩
  apply fmtRound_eq_self (⌊qty / step⌋ * n)
  push_cast
  rw [mul_assoc, hn]

theorem round_to_step_le {value step : ℚ} (hs : 0 < step) :
    round_to_step value step ≤ value := by
  unfold round_to_step
  rw [if_neg hs.ne']
  calc (⌊value / step⌋ : ℚ) * step ≤ value / step * step :=
        mul_le_mul_of_nonneg_right (Int.floor_le _) hs.le
    _ = value := div_mul_cancel₀ _ hs.ne'

theorem round_to_step_den {value step : ℚ} (hs : step ≠ 0) :
    (round_to_step value step / step).den = 1 := by
  unfold round_to_step
  rw [if_neg hs, mul_div_cancel_right₀ _ hs]
  exact Rat.den_intCast _

theorem round_qty_nonneg {qty : ℚ} (step : ℚ) (h : 0 ≤ qty) :
    0 ≤ round_qty_to_step qty step := by
  unfold round_qty_to_step
  split
  · exact h
  · next hs =>
    apply fmtRound_nonneg
    rcases lt_trichotomy step 0 with hneg | hz | hpos
    · have h1 : (⌊qty / step⌋ : ℚ) ≤ qty / step := Int.floor_le _
      have h2 : qty / step * step ≤ (⌊qty / step⌋ : ℚ) * step := by
        nlinarith
      rw [div_mul_cancel₀ _ hneg.ne] at h2
      exact h.trans h2
    · exact absurd hz hs
    · have h2 : (0 : ℤ) ≤ ⌊qty / step⌋ :=
        Int.floor_nonneg.mpr (div_nonneg h hpos.le)
      exact mul_nonneg (by exact_mod_cast h2) hpos.le

/-! ### C4, C5, C6 -/

/-- C4, counterexample.  With `lot_step = 0.025` the decimal precision
computed from the step's magnitude is 2, so after flooring
`0.076` to `0.075` the string formatting rounds it back up to `0.08`:
the returned quantity is not the floor-to-step of the raised raw
quantity, contrary to the claim. -/
theorem c4_counterexample :
    position_from_risk ⟨1/40, 1/10, 1/1000⟩ 7600 (1/1000) 100 0 ≠
      ⌊(max ((7600 : ℚ) * (1/1000) / |(100 : ℚ) - 0|) (1/1000)) / (1/40)⌋
        * (1/40) := by
  decide

/-- C4 (amended): the quantity is exactly `0` when the stop distance is
not positive (no division by zero); when the distance is positive and
`quantityStep` is nonzero with its step-grid representable at the
computed decimal precision (`(step * 10^p).den = 1`, true of every
power-of-ten step), the result is the raw quantity raised to
`minQuantity` and then floored to the step; and the result is never
negative provided `minQuantity` is nonnegative.  (For steps such as
`0.025` whose multiples are not representable at the computed precision,
the final decimal re-rounding can move the result off the claimed
floor-to-step value, which is the content of the counterexample.) -/
theorem c4_amended_quantity (m : SymbolMeta) (equity risk_pct entry stop : ℚ)
    (hmin : 0 ≤ m.min_order_qty) :
    (|entry - stop| ≤ 0 → position_from_risk m equity risk_pct entry stop = 0) ∧
    (0 < |entry - stop| → m.lot_step ≠ 0 →
      (m.lot_step * 10 ^ precisionOf m.lot_step).den = 1 →
      position_from_risk m equity risk_pct entry stop =
        ⌊(max (equity * risk_pct / |entry - stop|) m.min_order_qty)
            / m.lot_step⌋ * m.lot_step) ∧
    0 ≤ position_from_risk m equity risk_pct entry stop := by
  refine ⟨fun h => ?_, fun h hs hdec => ?_, ?_⟩
  · unfold position_from_risk
    rw [if_pos h]
  · unfold position_from_risk
    rw [if_neg (not_le.mpr h)]
    exact round_qty_to_step_eq_floor _ hs hdec
  · unfold position_from_risk
    split
    · exact le_refl 0
    · exact round_qty_nonneg _ (le_trans hmin (le_max_right _ _))

/-- C4 witness at the spec's own end-to-end example
(`equity = 1000`, `riskFraction = 0.01`, `entry = 120`, `stop = 102`,
default instrument rules). -/
theorem c4_amended_quantity_witness :
    position_from_risk defaultMeta 1000 (1/100) 120 102 =
      ⌊(max ((1000 : ℚ) * (1/100) / |(120 : ℚ) - 102|) defaultMeta.min_order_qty)
          / defaultMeta.lot_step⌋ * defaultMeta.lot_step ∧
    0 ≤ position_from_risk defaultMeta 1000 (1/100) 120 102 := by
  refine ⟨(c4_amended_quantity defaultMeta 1000 (1/100) 120 102 (by decide)).2.1
      (by decide) (by decide) (by decide),
    (c4_amended_quantity defaultMeta 1000 (1/100) 120 102 (by decide)).2.2⟩

/-- C5, counterexample.  With `minQuantity = 0.0015` and
`quantityStep = 0.001` the raw quantity `0.00001` is first raised to
`0.0015` and then floored to `0.001`, which is strictly below
`minQuantity` although the distance, step and `minQuantity` are all
positive. -/
theorem c5_counterexample :
    position_from_risk ⟨1/1000, 1/10, 3/2000⟩ 1 (1/1000) 100 0 <
      (3/2000 : ℚ) := by
  decide

/-- C5 (amended): the returned quantity is at least `minQuantity`
provided additionally that `minQuantity` is an exact integer multiple of
`quantityStep` and the step grid is representable at the computed
decimal precision; the source raises to `minQuantity` before flooring
(max-then-floor), so without the multiple condition the floor can land
one step below `minQuantity`, as the counterexample shows. -/
theorem c5_amended_min_quantity (m : SymbolMeta) (equity risk_pct entry stop : ℚ)
    (hd : 0 < |entry - stop|) (hstep : 0 < m.lot_step)
    (hdec : (m.lot_step * 10 ^ precisionOf m.lot_step).den = 1)
    (k : ℤ) (hk : m.min_order_qty = (k : ℚ) * m.lot_step)
    (hminpos : 0 < m.min_order_qty) :
    m.min_order_qty ≤ position_from_risk m equity risk_pct entry stop := by
  unfold position_from_risk
  rw [if_neg (not_le.mpr hd),
    round_qty_to_step_eq_floor _ hstep.ne' hdec]
  have h1 : (k : ℚ) ≤ max (equity * risk_pct / |entry - stop|) m.min_order_qty / m.lot_step := by
    rw [le_div_iff hstep]
    calc (k : ℚ) * m.lot_step = m.min_order_qty := hk.symm
      _ ≤ _ := le_max_right _ _
  have h2 : k ≤ ⌊max (equity * risk_pct / |entry - stop|) m.min_order_qty / m.lot_step⌋ :=
    Int.le_floor.mpr h1
  calc m.min_order_qty = (k : ℚ) * m.lot_step := hk
    _ ≤ (⌊max (equity * risk_pct / |entry - stop|) m.min_order_qty / m.lot_step⌋ : ℚ)
          * m.lot_step := by
        exact mul_le_mul_of_nonneg_right (by exact_mod_cast h2) hstep.le

/-- C5 witness: default rules, distance 18, tiny raw quantity raised to
the minimum. -/
theorem c5_amended_min_quantity_witness :
    defaultMeta.min_order_qty ≤ position_from_risk defaultMeta 1 (1/1000) 100 0 := by
  exact c5_amended_min_quantity defaultMeta 1 (1/1000) 100 0 (by decide)
    (by decide) (by decide) 1 (by decide) (by decide)

/-- C6, counterexample.  `round_qty_to_step` on raw quantity `0.076`
with step `0.025` returns `0.08`, which exceeds the unrounded raw
computation and is not a multiple of the step (`0.08 / 0.025 = 3.2`):
the quantity branch of the claim fails. -/
theorem c6_counterexample :
    round_qty_to_step (19/250) (1/40) = 2/25 ∧
    (19/250 : ℚ) < round_qty_to_step (19/250) (1/40) ∧
    (round_qty_to_step (19/250) (1/40) / (1/40)).den ≠ 1 := by
  refine ⟨by decide, by decide, by decide⟩

/-- C6 (amended): stop and target (computed through `round_to_step`
with a positive `priceStep`) are always exact multiples of the step and
never exceed the raw computation; the quantity satisfies the same two
properties whenever the step grid is representable at the computed
decimal precision (`(step * 10^p).den = 1`, e.g. any power-of-ten
step) — but not for steps like `0.025`, per the counterexample. -/
theorem c6_amended_step_compliance :
    (∀ (m : SymbolMeta) (side : TradeSide) (entry swing atr atr_mult : ℚ),
      0 < m.tick_step →
      (compute_sl m side entry swing atr atr_mult / m.tick_step).den = 1 ∧
      compute_sl m side entry swing atr atr_mult ≤ rawSl side entry swing atr atr_mult) ∧
    (∀ (m : SymbolMeta) (side : TradeSide) (entry stop rr : ℚ),
      0 < m.tick_step →
      (compute_tp m side entry stop rr / m.tick_step).den = 1 ∧
      compute_tp m side entry stop rr ≤ rawTp side entry stop rr) ∧
    (∀ qty step : ℚ, 0 < step →
      (step * 10 ^ precisionOf step).den = 1 →
      (round_qty_to_step qty step / step).den = 1 ∧
      round_qty_to_step qty step ≤ qty) := by
  refine ⟨fun m side entry swing atr atr_mult h => ?_,
    fun m side entry stop rr h => ?_, fun qty step h hdec => ?_⟩
  · exact ⟨round_to_step_den h.ne', round_to_step_le h⟩
  · exact ⟨round_to_step_den h.ne', round_to_step_le h⟩
  · rw [round_qty_to_step_eq_floor _ h.ne' hdec]
    constructor
    · rw [mul_div_cancel_right₀ _ h.ne']
      exact Rat.den_intCast _
    · calc (⌊qty / step⌋ : ℚ) * step ≤ qty / step * step :=
            mul_le_mul_of_nonneg_right (Int.floor_le _) h.le
        _ = qty := div_mul_cancel₀ _ h.ne'

/-- C6 witness: the stop of the entry scenario and a power-of-ten
quantity step. -/
theorem c6_amended_step_compliance_witness :
    ((compute_sl defaultMeta .long 120 108 5 (6/5) / defaultMeta.tick_step).den = 1 ∧
      compute_sl defaultMeta .long 120 108 5 (6/5) ≤ rawSl .long 120 108 5 (6/5)) ∧
    ((round_qty_to_step (19/250) (1/1000) / (1/1000)).den = 1 ∧
      round_qty_to_step (19/250) (1/1000) ≤ 19/250) := by
  exact ⟨c6_amended_step_compliance.1 defaultMeta .long 120 108 5 (6/5) (by decide),
    c6_amended_step_compliance.2.2 (19/250) (1/1000) (by decide) (by decide)⟩

/-! ### Shape lemmas for the per-symbol state machine -/

theorem autoClose_shape (cfg : BotConfig) (env : BotEnv) (c : SymbolContext)
    (pos : OpenPosition) :
    autoCloseIfOvertime cfg env c [pos] = (false, c, []) ∨
    autoCloseIfOvertime cfg env c [pos] =
      (true,
       { c with last_closed_position_time := env.now,
                position_open_time := none, state := .FLAT },
       [.closePosition pos.size pos.side env.closeOk,
        .logEvent .exit_overtime]) := by
  unfold autoCloseIfOvertime
  dsimp only
  split
  · left; rfl
  · split
    · left; rfl
    · split
      · right; rfl
      · left; rfl

theorem managePosition_shape (cfg : BotConfig) (env : BotEnv) (latest : BarRow)
    (c : SymbolContext) (pos : OpenPosition) :
    managePosition cfg env latest c pos = (c, []) ∨
    managePosition cfg env latest c pos =
      ({ c with last_closed_position_time := env.now,
                position_open_time := none, state := .FLAT },
       [.closePosition pos.size pos.side env.closeOk,
        .logEvent .exit_overtime]) ∨
    ∃ sd : ApiSide,
      managePosition cfg env latest c pos =
        ({ c with last_closed_position_time := env.now, state := .FLAT },
         [.closePosition pos.size (some sd) env.closeOk,
          .logEvent .exit_trail]) := by
  unfold managePosition
  rcases autoClose_shape cfg env c pos with h | h <;> rw [h] <;> dsimp only
  · split
    · left; rfl
    · split
      · right; right; exact ⟨.Buy, rfl⟩
      · split
        · right; right; exact ⟨.Sell, rfl⟩
        · left; rfl
  · right; left; rfl

theorem evalFlat_shape (cfg : BotConfig) (env : BotEnv) (f : PreparedFrame)
    (c : SymbolContext) (ao : Bool) (mE : Option SymbolMeta) :
    evalFlat cfg env f c ao mE = (c, []) ∨
    evalFlat cfg env f c ao mE = ({ c with state := .SETUP }, []) ∨
    evalFlat cfg env f c ao mE = ({ c with state := .FLAT }, []) ∨
    ∃ (side : TradeSide) (qty stop tp : ℚ),
      evalFlat cfg env f c ao mE =
        ({ c with position_open_time := some env.now,
                  state := .ENTERED, side := some side },
         [.setLeverage cfg.leverage, .setLeverage cfg.leverage,
          .placeOrder (apiSideOf side) qty stop tp env.placeOk,
          .logEvent .order_placed]) := by
  unfold evalFlat
  split
  · left; rfl
  · split
    · left; rfl
    · split
      · right; right; left; rfl
      · dsimp only
        split
        · split
          · right; left; rfl
          · right; right; left; rfl
        · split
          · left; rfl
          · right; right; right; exact ⟨_, _, _, _, rfl⟩

theorem processSymbol_dedup {cfg : BotConfig} {env : BotEnv} {f : PreparedFrame}
    {c : SymbolContext} (pl : List OpenPosition) (ao : Bool)
    (mE : Option SymbolMeta) (h : c.last_bar_ts_processed = some f.latest.ts) :
    processSymbol cfg env f c pl ao mE = (c, []) := by
  unfold processSymbol
  rw [if_pos h]

theorem processSymbol_manage {cfg : BotConfig} {env : BotEnv} {f : PreparedFrame}
    {c : SymbolContext} {pos : OpenPosition} (rest : List OpenPosition)
    (ao : Bool) (mE : Option SymbolMeta)
    (h : ¬ c.last_bar_ts_processed = some f.latest.ts) :
    processSymbol cfg env f c (pos :: rest) ao mE =
      managePosition cfg env f.latest
        { c with last_bar_ts_processed := some f.latest.ts } pos := by
  unfold processSymbol
  rw [if_neg h]
  rfl

theorem processSymbol_flat {cfg : BotConfig} {env : BotEnv} {f : PreparedFrame}
    {c : SymbolContext} (ao : Bool) (mE : Option SymbolMeta)
    (h : ¬ c.last_bar_ts_processed = some f.latest.ts) :
    processSymbol cfg env f c [] ao mE =
      evalFlat cfg env f
        { c with last_bar_ts_processed := some f.latest.ts,
                 position_open_time := none } ao mE := by
  unfold processSymbol
  rw [if_neg h]
  rfl

theorem processSymbol_lastBar (cfg : BotConfig) (env : BotEnv) (f : PreparedFrame)
    (c : SymbolContext) (pl : List OpenPosition) (ao : Bool)
    (mE : Option SymbolMeta) :
    (processSymbol cfg env f c pl ao mE).1.last_bar_ts_processed =
      some f.latest.ts := by
  by_cases h : c.last_bar_ts_processed = some f.latest.ts
  · rw [processSymbol_dedup pl ao mE h]
    exact h
  · cases pl with
    | nil =>
      rw [processSymbol_flat ao mE h]
      rcases evalFlat_shape cfg env f
          { c with last_bar_ts_processed := some f.latest.ts,
                   position_open_time := none } ao mE with
        hs | hs | hs | ⟨side, qty, stop, tp, hs⟩ <;> rw [hs]
    | cons pos rest =>
      rw [processSymbol_manage rest ao mE h]
      rcases managePosition_shape cfg env f.latest
          { c with last_bar_ts_processed := some f.latest.ts } pos with
        hs | hs | ⟨sd, hs⟩ <;> rw [hs]

/-! ### Claim theorems -/

/-- C3: if the latest closed bar's timestamp equals the stored
`last_bar_ts_processed`, the per-symbol sweep issues no action at all
(so in particular no order submission and no close) and returns the
`SymbolContext` unchanged in every field; and running the per-symbol
sweep a second time on the same unchanged latest bar leaves the state of
the first run unchanged and issues no further action, so two runs are
equivalent to one. -/
theorem c3_dedup_idempotent (cfg : BotConfig) (env : BotEnv)
    (f : PreparedFrame) (c : SymbolContext) (pl : List OpenPosition)
    (ao : Bool) (mE : Option SymbolMeta) :
    (c.last_bar_ts_processed = some f.latest.ts →
      processSymbol cfg env f c pl ao mE = (c, [])) ∧
    processSymbol cfg env f (processSymbol cfg env f c pl ao mE).1 pl ao mE =
      ((processSymbol cfg env f c pl ao mE).1, []) := by
  exact ⟨fun h => processSymbol_dedup pl ao mE h,
    processSymbol_dedup pl ao mE (processSymbol_lastBar cfg env f c pl ao mE)⟩

/-- C3 witness: a context that has already processed bar 2, with an open
position reported — the sweep still changes nothing and issues nothing. -/
theorem c3_dedup_idempotent_witness :
    processSymbol exCfg envOk exFrame dedupCtx [posBuy] true none =
      (dedupCtx, []) := by
  exact (c3_dedup_idempotent exCfg envOk exFrame dedupCtx [posBuy] true
    none).1 rfl

/-- C1, counterexample: the exchange snapshot reports no open position
(`posList = []`) while local memory says `ENTERED`, and the sweep
returns early at the dedup gate — the lifecycle is left `ENTERED`, not
forced to `FLAT` as the claim requires. -/
theorem c1_counterexample :
    (processSymbol exCfg envOk exFrame enteredCtx [] false none).1.state ≠
      LifecycleState.FLAT := by
  decide

/-- C1 (amended): when the exchange snapshot reports no open position
for the symbol, the sweep never issues a close order, but the lifecycle
is not forced to `Flat`: a sweep that returns early at the dedup gate
returns the whole context (including a stale `Entered`) unchanged, and
otherwise the lifecycle either keeps its previous value (exclusivity,
cooldown and zero-quantity early returns), is set to `Setup` or `Flat`
at the signal gate, or is set to `Entered` by a new entry submission
(witnessed by its `order_placed` event). -/
theorem c1_amended_reconciliation (cfg : BotConfig) (env : BotEnv)
    (f : PreparedFrame) (c : SymbolContext) (ao : Bool)
    (mE : Option SymbolMeta) :
    (∀ sz sd ok, BotAction.closePosition sz sd ok ∉
      (processSymbol cfg env f c [] ao mE).2) ∧
    (c.last_bar_ts_processed = some f.latest.ts →
      processSymbol cfg env f c [] ao mE = (c, [])) ∧
    ((processSymbol cfg env f c [] ao mE).1.state = c.state ∨
     (processSymbol cfg env f c [] ao mE).1.state = .SETUP ∨
     (processSymbol cfg env f c [] ao mE).1.state = .FLAT ∨
     ((processSymbol cfg env f c [] ao mE).1.state = .ENTERED ∧
       BotAction.logEvent .order_placed ∈
         (processSymbol cfg env f c [] ao mE).2)) := by
  by_cases h : c.last_bar_ts_processed = some f.latest.ts
  · rw [processSymbol_dedup _ _ _ h]
    exact ⟨fun sz sd ok => by simp, fun _ => rfl, Or.inl rfl⟩
  · rw [processSymbol_flat _ _ h]
    rcases evalFlat_shape cfg env f
        { c with last_bar_ts_processed := some f.latest.ts,
                 position_open_time := none } ao mE with
      hs | hs | hs | ⟨side, qty, stop, tp, hs⟩ <;> rw [hs]
    · exact ⟨fun sz sd ok => by simp, fun hh => absurd hh h, Or.inl rfl⟩
    · exact ⟨fun sz sd ok => by simp, fun hh => absurd hh h,
        Or.inr (Or.inl rfl)⟩
    · exact ⟨fun sz sd ok => by simp, fun hh => absurd hh h,
        Or.inr (Or.inr (Or.inl rfl))⟩
    · exact ⟨fun sz sd ok => by simp, fun hh => absurd hh h,
        Or.inr (Or.inr (Or.inr ⟨rfl, by simp⟩))⟩

/-- C1 witness (amended claim, dedup case): with no reported position
and the latest bar already processed, the context is returned
unchanged. -/
theorem c1_amended_reconciliation_witness :
    processSymbol exCfg envOk exFrame enteredCtx [] false none =
      (enteredCtx, []) := by
  exact (c1_amended_reconciliation exCfg envOk exFrame enteredCtx false
    none).2.1 rfl

/-- C7, counterexample: a trail-rule close (long position, close below
EMA20, `exit_trail` event issued, exchange close succeeding) does not
clear `position_open_time` — only two of the claim's three updates are
performed. -/
theorem c7_counterexample :
    BotAction.logEvent .exit_trail ∈
      (processSymbol exCfg envOk trailFrame trailCtx [posBuy] true none).2 ∧
    (processSymbol exCfg envOk trailFrame trailCtx [posBuy] true
        none).1.position_open_time ≠ none := by
  refine ⟨by decide, by decide⟩

/-- C7 (amended): an overtime close performs all three updates (cooldown
anchor to `now`, `position_open_time` cleared, lifecycle `FLAT`); a
trail close records the cooldown anchor and sets the lifecycle to
`FLAT` but leaves `position_open_time` unchanged (it is only cleared on
a later sweep that observes no open position). -/
theorem c7_amended_close_updates (cfg : BotConfig) (env : BotEnv)
    (f : PreparedFrame) (c : SymbolContext) (pl : List OpenPosition)
    (ao : Bool) (mE : Option SymbolMeta) :
    (BotAction.logEvent .exit_overtime ∈
        (processSymbol cfg env f c pl ao mE).2 →
      (processSymbol cfg env f c pl ao mE).1.last_closed_position_time = env.now ∧
      (processSymbol cfg env f c pl ao mE).1.position_open_time = none ∧
      (processSymbol cfg env f c pl ao mE).1.state = .FLAT) ∧
    (BotAction.logEvent .exit_trail ∈
        (processSymbol cfg env f c pl ao mE).2 →
      (processSymbol cfg env f c pl ao mE).1.last_closed_position_time = env.now ∧
      (processSymbol cfg env f c pl ao mE).1.state = .FLAT ∧
      (processSymbol cfg env f c pl ao mE).1.position_open_time =
        c.position_open_time) := by
  by_cases h : c.last_bar_ts_processed = some f.latest.ts
  · rw [processSymbol_dedup pl ao mE h]
    constructor <;> intro hm <;> simp at hm
  · cases pl with
    | nil =>
      rw [processSymbol_flat ao mE h]
      rcases evalFlat_shape cfg env f
          { c with last_bar_ts_processed := some f.latest.ts,
                   position_open_time := none } ao mE with
        hs | hs | hs | ⟨side, qty, stop, tp, hs⟩ <;> rw [hs] <;>
        constructor <;> intro hm <;> simp at hm
    | cons pos rest =>
      rw [processSymbol_manage rest ao mE h]
      rcases managePosition_shape cfg env f.latest
          { c with last_bar_ts_processed := some f.latest.ts } pos with
        hs | hs | ⟨sd, hs⟩ <;> rw [hs]
      · constructor <;> intro hm <;> simp at hm
      · refine ⟨fun _ => ⟨rfl, rfl, rfl⟩, fun hm => ?_⟩
        simp at hm
      · refine ⟨fun hm => ?_, fun _ => ⟨rfl, rfl, rfl⟩⟩
        simp at hm

/-- C7 witness (amended claim, overtime case): a position remembered as
opened at t = 50 is far past the 12-hour limit; the overtime close
performs all three updates. -/
theorem c7_amended_close_updates_witness :
    (processSymbol exCfg envOk trailFrame overtimeCtx [posBuy] true
        none).1.last_closed_position_time = envOk.now ∧
    (processSymbol exCfg envOk trailFrame overtimeCtx [posBuy] true
        none).1.position_open_time = none ∧
    (processSymbol exCfg envOk trailFrame overtimeCtx [posBuy] true
        none).1.state = .FLAT := by
  exact (c7_amended_close_updates exCfg envOk trailFrame overtimeCtx
    [posBuy] true none).1 (by decide)

theorem processSymbol_locked {cfg : BotConfig} (env : BotEnv)
    (f : PreparedFrame) (c : SymbolContext) (mE : Option SymbolMeta)
    (hmode : cfg.single_position_mode = true) :
    (processSymbol cfg env f c [] true mE).2 = [] := by
  by_cases h : c.last_bar_ts_processed = some f.latest.ts
  · rw [processSymbol_dedup _ _ _ h]
  · rw [processSymbol_flat _ _ h]
    simp [evalFlat, hmode]

/-- C8: in a sweep with single-position mode enabled whose start-of-sweep
snapshot reports some open position, a symbol whose own snapshot slice is
empty contributes no order-submission action to the sweep. -/
theorem c8_exclusivity_gate (cfg : BotConfig) (env : BotEnv)
    (symbols : List String) (snapshot : String → List OpenPosition)
    (frames : String → PreparedFrame) (metas : String → Option SymbolMeta)
    (ctxs : String → SymbolContext) (s : String)
    (hmode : cfg.single_position_mode = true)
    (hany : anyOpenOf symbols snapshot = true)
    (hs : snapshot s = []) :
    (jobSweep cfg env symbols snapshot frames metas ctxs).filter
      (fun p => decide (p.1 = s) && p.2.isPlaceOrder) = [] := by
  rw [List.filter_eq_nil]
  intro p hmem
  simp only [jobSweep, hany] at hmem
  rw [List.mem_flatMap] at hmem
  obtain ⟨s2, hs2, hmem2⟩ := hmem
  rw [List.mem_map] at hmem2
  obtain ⟨a2, ha2, rfl⟩ := hmem2
  by_cases hss : s2 = s
  · subst hss
    rw [hs, processSymbol_locked env _ _ _ hmode] at ha2
    simp at ha2
  · simp [hss]

/-- C8 witness: two symbols, `A` holding a position and `B` flat; the
sweep contains no order submission tagged `B`. -/
theorem c8_exclusivity_gate_witness :
    (jobSweep exCfg envOk ["A", "B"]
        (fun s => if s = "A" then [posBuy] else [])
        (fun _ => exFrame) (fun _ => none) (fun _ => freshCtx)).filter
      (fun p => decide (p.1 = "B") && p.2.isPlaceOrder) = [] := by
  exact c8_exclusivity_gate exCfg envOk ["A", "B"]
    (fun s => if s = "A" then [posBuy] else [])
    (fun _ => exFrame) (fun _ => none) (fun _ => freshCtx) "B"
    rfl (by decide) (by decide)

/-- C2 (code bug, evaluated at the failing input): an entry attempt in
which the exchange rejects the order (`env.placeOk = false`, i.e.
`place_order` sees `retCode ≠ 0`, catches its own exception and returns
`None`) still ends with the lifecycle set to `ENTERED`, records an
`order_placed` audit event and no `error` event — `process_symbol`'s own
failure handler (which would leave `FLAT` and log `error`) is
unreachable because the session wrapper swallows the failure. -/
theorem c2_failed_order_marks_entered :
    (processSymbol exCfg envFail exFrame freshCtx [] false none).1.state =
      LifecycleState.ENTERED ∧
    BotAction.logEvent .order_placed ∈
      (processSymbol exCfg envFail exFrame freshCtx [] false none).2 ∧
    BotAction.logEvent .error ∉
      (processSymbol exCfg envFail exFrame freshCtx [] false none).2 := by
  refine ⟨by decide, by decide, by decide⟩

/-- C9 (code bug, evaluated at the failing input): the source's short
touch test reuses the long band bounds (`lo = min ema50`,
`hi = max ema20`), which is empty in a short regime, so a close inside
the EMA zone is not detected: on `shortRow` the code returns `false`
while the exact mirror of the long test (the long test applied to the
price-negated frame) returns `true` — the short test is not the mirror
the code's own comment claims. -/
theorem c9_short_touch_not_mirror :
    touchPullbackRecent [shortRow] .short 2 = false ∧
    touchPullbackRecent ([shortRow].map mirrorRow) .long 2 = true := by
  refine ⟨by decide, by decide⟩

/-- C10: a failed instrument-rules fetch at startup leaves `None` in the
meta map (`get_instrument_info` catches its own exception) and the
per-symbol sweep then behaves exactly as with the default rules
`{lot_step := 0.001, tick_step := 0.1, min_order_qty := 0.001}`
substituted — it neither aborts nor refuses to trade: in the concrete
entry scenario it places the order with quantity, stop and target
computed from the default steps. -/
theorem c10_default_meta_fallback :
    (∀ (cfg : BotConfig) (env : BotEnv) (f : PreparedFrame)
        (c : SymbolContext) (pl : List OpenPosition) (ao : Bool),
      processSymbol cfg env f c pl ao none =
        processSymbol cfg env f c pl ao (some defaultMeta)) ∧
    defaultMeta = ⟨1/1000, 1/10, 1/1000⟩ ∧
    (processSymbol exCfg envOk exFrame freshCtx [] false none).2 =
      [.setLeverage 10, .setLeverage 10,
       .placeOrder .Buy (111/200) 102 156 true,
       .logEvent .order_placed] := by
  refine ⟨fun cfg env f c pl ao => rfl, rfl, by decide⟩
